import Mathlib

/-!
Verification development for `lib/utils.py` of the faceswap repository.

The Python source is shallowly embedded: numpy int32 coordinates become `ℤ`,
the float arithmetic of `cv2.invertAffineTransform` / `cv2.transform` is
idealised as exact rational arithmetic (`ℚ`) followed by the C-style
truncation toward zero performed by `.astype(np.int32)`, Python exceptions
become an explicit error type, and in-place mutation is made visible by
returning both the post-call state of the caller's argument and the
returned-or-raised outcome.
-/

/-- Truncation toward zero, as performed by numpy's `.astype(np.int32)`
on a float value. -/
def ratTrunc (q : ℚ) : ℤ := if 0 ≤ q then ⌊q⌋ else ⌈q⌉

theorem ratTrunc_intCast (n : ℤ) : ratTrunc (n : ℚ) = n := by
  unfold ratTrunc
  split <;> simp

/-- A 2x3 affine matrix `[[a, b, tx], [c, d, ty]]` as used by
`cv2.getRotationMatrix2D` / `cv2.transform`. -/
structure AffineMat where
  a : ℚ
  b : ℚ
  tx : ℚ
  c : ℚ
  d : ℚ
  ty : ℚ
deriving DecidableEq

/-- Determinant of the linear 2x2 part of an affine matrix. -/
def AffineMat.det (m : AffineMat) : ℚ := m.a * m.d - m.b * m.c

/-- `cv2.invertAffineTransform`: invert the 2x2 linear part and adjust the
translation (exact rational arithmetic idealising the float computation). -/
def invertAffineTransform (m : AffineMat) : AffineMat :=
  ⟨m.d / m.det, -m.b / m.det, (m.b * m.ty - m.d * m.tx) / m.det,
   -m.c / m.det, m.a / m.det, (m.c * m.tx - m.a * m.ty) / m.det⟩

/-- `cv2.transform` on a single integer point followed by
`.astype(np.int32)`: apply the affine matrix and truncate toward zero. -/
def transformPoint (m : AffineMat) (p : ℤ × ℤ) : ℤ × ℤ :=
  (ratTrunc (m.a * p.1 + m.b * p.2 + m.tx),
   ratTrunc (m.c * p.1 + m.d * p.2 + m.ty))

/-- Python's `min` over a list of ints (the lists it is applied to in the
source are always the four transformed box corners, hence nonempty). -/
def pyMin : List ℤ → ℤ
  | [] => 0
  | x :: xs => xs.foldl min x

/-- Python's `max` over a list of ints. -/
def pyMax : List ℤ → ℤ
  | [] => 0
  | x :: xs => xs.foldl max x

/-- The `(pt_x, pt_y, pt_x1, pt_y1)` computation of `rotate_landmarks`:
componentwise min and max over the transformed bounding-box corners. -/
def aabbOf (pts : List (ℤ × ℤ)) : ℤ × ℤ × ℤ × ℤ :=
  (pyMin (pts.map Prod.fst), pyMin (pts.map Prod.snd),
   pyMax (pts.map Prod.fst), pyMax (pts.map Prod.snd))

/-- `lib.faces_detect.DetectedFace`: the fields `rotate_landmarks` touches. -/
structure DetectedFace where
  x : ℤ
  y : ℤ
  w : ℤ
  h : ℤ
  r : ℤ
  landmarksXY : List (ℤ × ℤ)
deriving DecidableEq

/-- An alignments `dict`: each key may be absent (`face.get(key, default)`). -/
structure FaceDict where
  x : Option ℤ
  y : Option ℤ
  w : Option ℤ
  h : Option ℤ
  r : Option ℤ
  landmarksXY : Option (List (ℤ × ℤ))
deriving DecidableEq

/-- A `dlib.rectangle`: spatial bounds only, no rotation or landmarks. -/
structure DlibRectangle where
  left : ℤ
  top : ℤ
  right : ℤ
  bottom : ℤ
deriving DecidableEq

/-- The dynamically-typed argument of `rotate_landmarks`: one of the three
recognised shapes, or any other runtime value (`unsupported`). -/
inductive Face where
  | detected (f : DetectedFace)
  | mapping (d : FaceDict)
  | rect (rc : DlibRectangle)
  | unsupported
deriving DecidableEq

/-- Python exceptions distinguished by the embedding. -/
inductive PyError where
  | valueError (msg : String)
  | unboundLocal (name : String)
  | typeError (msg : String)
  | assertionError (msg : String)
deriving DecidableEq

deriving instance DecidableEq for Except

/-- Outcome of a call: `inputAfter` is the state of the caller's argument
after the call (in-place mutation made visible), `result` is the returned
value or the raised exception. -/
structure RotateOutcome where
  inputAfter : Face
  result : Except PyError Face
deriving DecidableEq

/-- `rotate_landmarks(face, rotation_matrix)`.

Per-branch behaviour of the source:
* the bounding-box corner list is built clockwise from `(x, y)`;
* the supplied matrix is inverted and applied (with int32 truncation) to the
  corners and, when present and nonempty, to the landmark list;
* the box is rewritten as min/max of the transformed corners, `r` set to 0;
* for the `DetectedFace` and `dict` shapes the write-back mutates the
  caller's object in place; the final `logger.trace` line then evaluates
  `rotated_landmarks`, which is unbound when the landmark list was empty
  (an `UnboundLocalError` after the write-back), and the list comprehension
  building it raises `TypeError` when there was exactly one landmark
  (`np.squeeze` collapses a `(1, 1, 2)` array to a flat pair, so
  `tuple(point)` iterates over an int);
* for the `dlib.rectangle` shape a fresh rectangle is constructed and no
  argument is mutated;
* any other value raises `ValueError("Unsupported face type")` before any
  write. -/
def rotate_landmarks (face : Face) (rotation_matrix : AffineMat) : RotateOutcome :=
  match face with
  | .detected f =>
      let bounding_box : List (ℤ × ℤ) :=
        [(f.x, f.y), (f.x + f.w, f.y), (f.x + f.w, f.y + f.h), (f.x, f.y + f.h)]
      let landmarks := f.landmarksXY
      let rmat := invertAffineTransform rotation_matrix
      let rotated_box := bounding_box.map (transformPoint rmat)
      let rotated_lm := landmarks.map (transformPoint rmat)
      let ab := aabbOf rotated_box
      let f1 : DetectedFace :=
        { f with x := ab.1, y := ab.2.1, w := ab.2.2.1 - ab.1,
                 h := ab.2.2.2 - ab.2.1, r := 0 }
      match landmarks with
      | [] => ⟨.detected f1, .error (.unboundLocal "rotated_landmarks")⟩
      | [_] => ⟨.detected f1, .error (.typeError "int object is not iterable")⟩
      | _ =>
          let f2 : DetectedFace := { f1 with landmarksXY := rotated_lm }
          ⟨.detected f2, .ok (.detected f2)⟩
  | .mapping d =>
      let bounding_box : List (ℤ × ℤ) :=
        [(d.x.getD 0, d.y.getD 0),
         (d.x.getD 0 + d.w.getD 0, d.y.getD 0),
         (d.x.getD 0 + d.w.getD 0, d.y.getD 0 + d.h.getD 0),
         (d.x.getD 0, d.y.getD 0 + d.h.getD 0)]
      let landmarks := d.landmarksXY.getD []
      let rmat := invertAffineTransform rotation_matrix
      let rotated_box := bounding_box.map (transformPoint rmat)
      let rotated_lm := landmarks.map (transformPoint rmat)
      let ab := aabbOf rotated_box
      let d1 : FaceDict :=
        { d with x := some ab.1, y := some ab.2.1, w := some (ab.2.2.1 - ab.1),
                 h := some (ab.2.2.2 - ab.2.1), r := some 0 }
      match landmarks with
      | [] => ⟨.mapping d1, .error (.unboundLocal "rotated_landmarks")⟩
      | [_] => ⟨.mapping d1, .error (.typeError "int object is not iterable")⟩
      | _ =>
          let d2 : FaceDict := { d1 with landmarksXY := some rotated_lm }
          ⟨.mapping d2, .ok (.mapping d2)⟩
  | .rect rc =>
      let bounding_box : List (ℤ × ℤ) :=
        [(rc.left, rc.top), (rc.right, rc.top),
         (rc.right, rc.bottom), (rc.left, rc.bottom)]
      let rmat := invertAffineTransform rotation_matrix
      let rotated_box := bounding_box.map (transformPoint rmat)
      let ab := aabbOf rotated_box
      ⟨.rect rc, .ok (.rect ⟨ab.1, ab.2.1, ab.2.2.1, ab.2.2.2⟩)⟩
  | .unsupported => ⟨.unsupported, .error (.valueError "Unsupported face type")⟩

/-- The identity 2x3 affine matrix. -/
def identityMat : AffineMat := ⟨1, 0, 0, 0, 1, 0⟩

/-- 90-degree rotation matrix `[[cos, sin], [-sin, cos]]` (cv2 convention,
`getRotationMatrix2D` style) with an arbitrary integer translation. -/
def rot90 (tx ty : ℤ) : AffineMat := ⟨0, 1, (tx : ℚ), -1, 0, (ty : ℚ)⟩

/-- 180-degree rotation matrix with an arbitrary integer translation. -/
def rot180 (tx ty : ℤ) : AffineMat := ⟨-1, 0, (tx : ℚ), 0, -1, (ty : ℚ)⟩

/-- 270-degree rotation matrix with an arbitrary integer translation. -/
def rot270 (tx ty : ℤ) : AffineMat := ⟨0, -1, (tx : ℚ), 1, 0, (ty : ℚ)⟩

theorem ratTrunc_eq (q : ℚ) (n : ℤ) (h : q = (n : ℚ)) : ratTrunc q = n := by
  rw [h, ratTrunc_intCast]

theorem transformPoint_rot90 (tx ty : ℤ) (p : ℤ × ℤ) :
    transformPoint (rot90 tx ty) p = (p.2 + tx, -p.1 + ty) := by
  simp only [transformPoint, rot90, Prod.mk.injEq]
  exact ⟨ratTrunc_eq _ _ (by push_cast; ring), ratTrunc_eq _ _ (by push_cast; ring)⟩

theorem transformPoint_rot180 (tx ty : ℤ) (p : ℤ × ℤ) :
    transformPoint (rot180 tx ty) p = (-p.1 + tx, -p.2 + ty) := by
  simp only [transformPoint, rot180, Prod.mk.injEq]
  exact ⟨ratTrunc_eq _ _ (by push_cast; ring), ratTrunc_eq _ _ (by push_cast; ring)⟩

theorem transformPoint_rot270 (tx ty : ℤ) (p : ℤ × ℤ) :
    transformPoint (rot270 tx ty) p = (-p.2 + tx, p.1 + ty) := by
  simp only [transformPoint, rot270, Prod.mk.injEq]
  exact ⟨ratTrunc_eq _ _ (by push_cast; ring), ratTrunc_eq _ _ (by push_cast; ring)⟩

theorem transformPoint_invRot90 (tx ty : ℤ) (p : ℤ × ℤ) :
    transformPoint (invertAffineTransform (rot90 tx ty)) p = (-p.2 + ty, p.1 - tx) := by
  simp only [transformPoint, invertAffineTransform, rot90, AffineMat.det, Prod.mk.injEq]
  norm_num
  exact ⟨ratTrunc_eq _ _ (by push_cast; ring), ratTrunc_eq _ _ (by push_cast; ring)⟩

theorem transformPoint_invRot180 (tx ty : ℤ) (p : ℤ × ℤ) :
    transformPoint (invertAffineTransform (rot180 tx ty)) p = (-p.1 + tx, -p.2 + ty) := by
  simp only [transformPoint, invertAffineTransform, rot180, AffineMat.det, Prod.mk.injEq]
  norm_num
  exact ⟨ratTrunc_eq _ _ (by push_cast; ring), ratTrunc_eq _ _ (by push_cast; ring)⟩

theorem transformPoint_invRot270 (tx ty : ℤ) (p : ℤ × ℤ) :
    transformPoint (invertAffineTransform (rot270 tx ty)) p = (p.2 - ty, -p.1 + tx) := by
  simp only [transformPoint, invertAffineTransform, rot270, AffineMat.det, Prod.mk.injEq]
  norm_num
  exact ⟨ratTrunc_eq _ _ (by push_cast; ring), ratTrunc_eq _ _ (by push_cast; ring)⟩

theorem transformPoint_invIdentity (p : ℤ × ℤ) :
    transformPoint (invertAffineTransform identityMat) p = p := by
  simp only [transformPoint, invertAffineTransform, identityMat, AffineMat.det]
  norm_num
  exact Prod.ext (ratTrunc_intCast p.1) (ratTrunc_intCast p.2)

/-- `p` lies inside the axis-aligned box with origin `(bx, by0)`, width `bw`
and height `bh`. -/
def Encloses (bx by0 bw bh : ℤ) (p : ℤ × ℤ) : Prop :=
  bx ≤ p.1 ∧ p.1 ≤ bx + bw ∧ by0 ≤ p.2 ∧ p.2 ≤ by0 + bh

/-- `(bx, by0, bw, bh)` is the minimal axis-aligned box enclosing all the
points of `ps`: it encloses them, and it is contained in every axis-aligned
box that encloses them. -/
def IsMinAABB (bx by0 bw bh : ℤ) (ps : List (ℤ × ℤ)) : Prop :=
  (∀ p ∈ ps, Encloses bx by0 bw bh p) ∧
  ∀ cx cy cw ch, (∀ p ∈ ps, Encloses cx cy cw ch p) →
    cx ≤ bx ∧ cy ≤ by0 ∧ bx + bw ≤ cx + cw ∧ by0 + bh ≤ cy + ch

theorem aabbOf_isMinAABB (q1 q2 q3 q4 : ℤ × ℤ) :
    IsMinAABB (aabbOf [q1, q2, q3, q4]).1 (aabbOf [q1, q2, q3, q4]).2.1
      ((aabbOf [q1, q2, q3, q4]).2.2.1 - (aabbOf [q1, q2, q3, q4]).1)
      ((aabbOf [q1, q2, q3, q4]).2.2.2 - (aabbOf [q1, q2, q3, q4]).2.1)
      [q1, q2, q3, q4] := by
  simp only [aabbOf, pyMin, pyMax, List.map_cons, List.map_nil, List.foldl_cons,
    List.foldl_nil, IsMinAABB, Encloses, List.mem_cons, List.not_mem_nil, or_false]
  constructor
  · rintro p (rfl | rfl | rfl | rfl) <;> refine ⟨by omega, by omega, by omega, by omega⟩
  · intro cx cy cw ch hall
    have h1 := hall q1 (Or.inl rfl)
    have h2 := hall q2 (Or.inr (Or.inl rfl))
    have h3 := hall q3 (Or.inr (Or.inr (Or.inl rfl)))
    have h4 := hall q4 (Or.inr (Or.inr (Or.inr rfl)))
    omega

/-- The bounding box `(x, y, w, h)` carried by a face record, read the way
the source reads it: `dict.get` with default 0 for the mapping shape, and
`right - left` / `bottom - top` as width and height of a bare rectangle. -/
def Face.boxOf : Face → ℤ × ℤ × ℤ × ℤ
  | .detected f => (f.x, f.y, f.w, f.h)
  | .mapping d => (d.x.getD 0, d.y.getD 0, d.w.getD 0, d.h.getD 0)
  | .rect rc => (rc.left, rc.top, rc.right - rc.left, rc.bottom - rc.top)
  | .unsupported => (0, 0, 0, 0)

/-- The residual-rotation value carried by a face record (0 when the shape
has no rotation field, as for a bare rectangle). -/
def Face.rotValue : Face → ℤ
  | .detected f => f.r
  | .mapping d => d.r.getD 0
  | .rect _ => 0
  | .unsupported => 0

/-- The four corners of the record's bounding box, clockwise from `(x, y)`,
exactly as the source builds its `bounding_box` list. -/
def Face.cornersOf (face : Face) : List (ℤ × ℤ) :=
  [(face.boxOf.1, face.boxOf.2.1),
   (face.boxOf.1 + face.boxOf.2.2.1, face.boxOf.2.1),
   (face.boxOf.1 + face.boxOf.2.2.1, face.boxOf.2.1 + face.boxOf.2.2.2),
   (face.boxOf.1, face.boxOf.2.1 + face.boxOf.2.2.2)]

/-- The record that holds the corrected box once the call has run: the
returned record when the call returns, otherwise the (already mutated)
argument. -/
def RotateOutcome.corrected (o : RotateOutcome) : Face :=
  match o.result with
  | .ok fc => fc
  | .error _ => o.inputAfter

theorem int_add_sub_self (a b : ℤ) : a + (b - a) = b := by ring

/-- C1: for every supported face-record shape and every invertible affine
rotation matrix, after `rotate_landmarks` the stored bounding box
`(x, y, w, h)` is the minimal axis-aligned rectangle enclosing the four
transformed corners of the original box (transformed, as the source does,
by the inverted matrix with int32 truncation), and the rotation field `r`
is set to 0 (a bare rectangle carries no rotation field, read as 0). -/
theorem rotate_landmarks_minimal_aabb (m : AffineMat) (hm : m.det ≠ 0)
    (face : Face) (hface : face ≠ Face.unsupported) :
    IsMinAABB ((rotate_landmarks face m).corrected.boxOf).1
      ((rotate_landmarks face m).corrected.boxOf).2.1
      ((rotate_landmarks face m).corrected.boxOf).2.2.1
      ((rotate_landmarks face m).corrected.boxOf).2.2.2
      (face.cornersOf.map (transformPoint (invertAffineTransform m))) ∧
    (rotate_landmarks face m).corrected.rotValue = 0 := by
  cases face with
  | detected f =>
      rcases hL : f.landmarksXY with _ | ⟨p, _ | ⟨q, rest⟩⟩ <;>
        · simp only [rotate_landmarks, hL, RotateOutcome.corrected, Face.boxOf,
            Face.rotValue, Face.cornersOf, List.map_cons, List.map_nil]
          exact ⟨aabbOf_isMinAABB _ _ _ _, trivial⟩
  | mapping d =>
      rcases hL : d.landmarksXY.getD [] with _ | ⟨p, _ | ⟨q, rest⟩⟩ <;>
        · simp only [rotate_landmarks, hL, RotateOutcome.corrected, Face.boxOf,
            Face.rotValue, Face.cornersOf, List.map_cons, List.map_nil, Option.getD_some]
          exact ⟨aabbOf_isMinAABB _ _ _ _, trivial⟩
  | rect rc =>
      simp only [rotate_landmarks, RotateOutcome.corrected, Face.boxOf,
        Face.rotValue, Face.cornersOf, List.map_cons, List.map_nil, int_add_sub_self]
      exact ⟨aabbOf_isMinAABB _ _ _ _, trivial⟩
  | unsupported => exact absurd rfl hface

theorem rotate_landmarks_minimal_aabb_witness :
    identityMat.det ≠ 0 ∧ Face.rect ⟨0, 0, 2, 3⟩ ≠ Face.unsupported ∧
    (IsMinAABB ((rotate_landmarks (Face.rect ⟨0, 0, 2, 3⟩) identityMat).corrected.boxOf).1
      ((rotate_landmarks (Face.rect ⟨0, 0, 2, 3⟩) identityMat).corrected.boxOf).2.1
      ((rotate_landmarks (Face.rect ⟨0, 0, 2, 3⟩) identityMat).corrected.boxOf).2.2.1
      ((rotate_landmarks (Face.rect ⟨0, 0, 2, 3⟩) identityMat).corrected.boxOf).2.2.2
      ((Face.rect ⟨0, 0, 2, 3⟩).cornersOf.map
        (transformPoint (invertAffineTransform identityMat))) ∧
    (rotate_landmarks (Face.rect ⟨0, 0, 2, 3⟩) identityMat).corrected.rotValue = 0) :=
  ⟨by norm_num [identityMat, AffineMat.det], by decide,
   rotate_landmarks_minimal_aabb identityMat (by norm_num [identityMat, AffineMat.det])
     (Face.rect ⟨0, 0, 2, 3⟩) (by decide)⟩

/-- C5: an input of none of the three recognised shapes always raises the
designated unsupported-type error; nothing is returned and the argument is
untouched (the error precedes any write-back). -/
theorem rotate_landmarks_unsupported (m : AffineMat) :
    rotate_landmarks Face.unsupported m =
      ⟨Face.unsupported, Except.error (PyError.valueError "Unsupported face type")⟩ :=
  rfl

/-- C6: with an empty landmark list (`DetectedFace` with empty
`landmarksXY`, or a mapping without the key or with an empty one) the call
does not return a corrected record: the trace line references
`rotated_landmarks`, assigned only when landmarks were present or the input
was a bare rectangle, so an unbound-local error is raised — after the box
and `r = 0` write-back has already mutated the argument. -/
theorem rotate_landmarks_empty_landmarks (m : AffineMat)
    (f : DetectedFace) (d : FaceDict)
    (hf : f.landmarksXY = [])
    (hd : d.landmarksXY = none ∨ d.landmarksXY = some []) :
    ((rotate_landmarks (Face.detected f) m).result =
        Except.error (PyError.unboundLocal "rotated_landmarks") ∧
      (rotate_landmarks (Face.detected f) m).inputAfter.rotValue = 0) ∧
    ((rotate_landmarks (Face.mapping d) m).result =
        Except.error (PyError.unboundLocal "rotated_landmarks") ∧
      (rotate_landmarks (Face.mapping d) m).inputAfter.rotValue = 0) := by
  have hd' : d.landmarksXY.getD [] = [] := by rcases hd with h | h <;> simp [h]
  refine ⟨?_, ?_⟩ <;>
    simp [rotate_landmarks, hf, hd', Face.rotValue]

theorem rotate_landmarks_empty_landmarks_witness :
    (DetectedFace.mk 1 2 3 4 5 []).landmarksXY = [] ∧
    ((FaceDict.mk (some 1) (some 2) (some 3) (some 4) (some 5) none).landmarksXY = none ∨
      (FaceDict.mk (some 1) (some 2) (some 3) (some 4) (some 5) none).landmarksXY = some []) ∧
    (((rotate_landmarks (Face.detected (DetectedFace.mk 1 2 3 4 5 [])) identityMat).result =
        Except.error (PyError.unboundLocal "rotated_landmarks") ∧
      (rotate_landmarks (Face.detected (DetectedFace.mk 1 2 3 4 5 []))
          identityMat).inputAfter.rotValue = 0) ∧
     ((rotate_landmarks
          (Face.mapping (FaceDict.mk (some 1) (some 2) (some 3) (some 4) (some 5) none))
          identityMat).result =
        Except.error (PyError.unboundLocal "rotated_landmarks") ∧
      (rotate_landmarks
          (Face.mapping (FaceDict.mk (some 1) (some 2) (some 3) (some 4) (some 5) none))
          identityMat).inputAfter.rotValue = 0)) :=
  ⟨rfl, Or.inl rfl,
   rotate_landmarks_empty_landmarks identityMat (DetectedFace.mk 1 2 3 4 5 [])
     (FaceDict.mk (some 1) (some 2) (some 3) (some 4) (some 5) none) rfl (Or.inl rfl)⟩

/-- C3 as stated is false: a `DetectedFace` whose landmark list is empty
carries a bounding box with non-negative width and height, yet the call
with the identity matrix raises instead of returning a face record. -/
theorem rotate_landmarks_identity_cex :
    (rotate_landmarks (Face.detected (DetectedFace.mk 0 0 1 1 7 [])) identityMat).result =
      Except.error (PyError.unboundLocal "rotated_landmarks") ∧
    ((rotate_landmarks (Face.detected (DetectedFace.mk 0 0 1 1 7 [])) identityMat).result.isOk
      = false) := by
  constructor <;> rfl

/-- C3 amended: for a face record whose bounding box has non-negative width
and height, and whose landmark list has at least two points (with an empty
list the call raises an unbound-local error after the write-back, with
exactly one point a type error), `rotate_landmarks` with the identity
matrix returns a record of the same shape with the same `(x, y, w, h)`, the
landmarks unchanged, and `r` set to 0. -/
theorem rotate_landmarks_identity (f : DetectedFace) (d : FaceDict)
    (hfw : 0 ≤ f.w) (hfh : 0 ≤ f.h) (hfl : 2 ≤ f.landmarksXY.length)
    (hdw : 0 ≤ d.w.getD 0) (hdh : 0 ≤ d.h.getD 0)
    (hdl : 2 ≤ (d.landmarksXY.getD []).length) :
    (∃ g : DetectedFace,
       rotate_landmarks (Face.detected f) identityMat =
         ⟨Face.detected g, Except.ok (Face.detected g)⟩ ∧
       g.x = f.x ∧ g.y = f.y ∧ g.w = f.w ∧ g.h = f.h ∧ g.r = 0 ∧
       g.landmarksXY = f.landmarksXY) ∧
    (∃ d2 : FaceDict,
       rotate_landmarks (Face.mapping d) identityMat =
         ⟨Face.mapping d2, Except.ok (Face.mapping d2)⟩ ∧
       d2.x.getD 0 = d.x.getD 0 ∧ d2.y.getD 0 = d.y.getD 0 ∧
       d2.w.getD 0 = d.w.getD 0 ∧ d2.h.getD 0 = d.h.getD 0 ∧ d2.r = some 0 ∧
       d2.landmarksXY = some (d.landmarksXY.getD [])) := by
  have hid : transformPoint (invertAffineTransform identityMat) = id :=
    funext transformPoint_invIdentity
  constructor
  · rcases hL : f.landmarksXY with _ | ⟨p, _ | ⟨q, rest⟩⟩
    · rw [hL] at hfl; simp at hfl
    · rw [hL] at hfl; simp at hfl
    · simp only [rotate_landmarks, hL]
      refine ⟨_, rfl, ?_, ?_, ?_, ?_, rfl, ?_⟩ <;>
        simp only [hid, List.map_id, aabbOf, pyMin, pyMax, List.map_cons,
          List.map_nil, List.foldl_cons, List.foldl_nil, id_eq, hL] <;> omega
  · rcases hL : d.landmarksXY.getD [] with _ | ⟨p, _ | ⟨q, rest⟩⟩
    · rw [hL] at hdl; simp at hdl
    · rw [hL] at hdl; simp at hdl
    · simp only [rotate_landmarks, hL]
      refine ⟨_, rfl, ?_, ?_, ?_, ?_, rfl, ?_⟩ <;>
        simp only [hid, List.map_id, aabbOf, pyMin, pyMax, List.map_cons,
          List.map_nil, List.foldl_cons, List.foldl_nil, id_eq, hL,
          Option.getD_some] <;> omega

theorem rotate_landmarks_identity_witness :
    (0 ≤ (DetectedFace.mk 0 0 2 3 9 [(0, 0), (1, 1)]).w ∧
     0 ≤ (DetectedFace.mk 0 0 2 3 9 [(0, 0), (1, 1)]).h ∧
     2 ≤ (DetectedFace.mk 0 0 2 3 9 [(0, 0), (1, 1)]).landmarksXY.length) ∧
    ((∃ g : DetectedFace,
       rotate_landmarks (Face.detected (DetectedFace.mk 0 0 2 3 9 [(0, 0), (1, 1)]))
           identityMat =
         ⟨Face.detected g, Except.ok (Face.detected g)⟩ ∧
       g.x = (DetectedFace.mk 0 0 2 3 9 [(0, 0), (1, 1)]).x ∧
       g.y = (DetectedFace.mk 0 0 2 3 9 [(0, 0), (1, 1)]).y ∧
       g.w = (DetectedFace.mk 0 0 2 3 9 [(0, 0), (1, 1)]).w ∧
       g.h = (DetectedFace.mk 0 0 2 3 9 [(0, 0), (1, 1)]).h ∧ g.r = 0 ∧
       g.landmarksXY = (DetectedFace.mk 0 0 2 3 9 [(0, 0), (1, 1)]).landmarksXY) ∧
     (∃ d2 : FaceDict,
       rotate_landmarks
           (Face.mapping (FaceDict.mk (some 1) (some 2) (some 3) (some 4) (some 5)
             (some [(0, 0), (1, 1)]))) identityMat =
         ⟨Face.mapping d2, Except.ok (Face.mapping d2)⟩ ∧
       d2.x.getD 0 = ((FaceDict.mk (some 1) (some 2) (some 3) (some 4) (some 5)
             (some [(0, 0), (1, 1)])) : FaceDict).x.getD 0 ∧
       d2.y.getD 0 = (FaceDict.mk (some 1) (some 2) (some 3) (some 4) (some 5)
             (some [(0, 0), (1, 1)])).y.getD 0 ∧
       d2.w.getD 0 = (FaceDict.mk (some 1) (some 2) (some 3) (some 4) (some 5)
             (some [(0, 0), (1, 1)])).w.getD 0 ∧
       d2.h.getD 0 = (FaceDict.mk (some 1) (some 2) (some 3) (some 4) (some 5)
             (some [(0, 0), (1, 1)])).h.getD 0 ∧ d2.r = some 0 ∧
       d2.landmarksXY = some ((FaceDict.mk (some 1) (some 2) (some 3) (some 4) (some 5)
             (some [(0, 0), (1, 1)])).landmarksXY.getD []))) :=
  ⟨⟨by decide, by decide, by decide⟩,
   rotate_landmarks_identity (DetectedFace.mk 0 0 2 3 9 [(0, 0), (1, 1)])
     (FaceDict.mk (some 1) (some 2) (some 3) (some 4) (some 5) (some [(0, 0), (1, 1)]))
     (by decide) (by decide) (by decide) (by decide) (by decide) (by decide)⟩

/-- C4 as stated is false: the mapping branch writes `face["x"] = ...`
directly into the caller's dict — no copy is taken — so the caller's input
mapping is changed by the call (here its `r` entry goes from 5 to 0). -/
theorem rotate_landmarks_mapping_mutates_cex :
    (rotate_landmarks
        (Face.mapping (FaceDict.mk (some 0) (some 0) (some 1) (some 1) (some 5)
          (some [(0, 0), (1, 1)]))) identityMat).inputAfter ≠
      Face.mapping (FaceDict.mk (some 0) (some 0) (some 1) (some 1) (some 5)
        (some [(0, 0), (1, 1)])) := by
  intro h
  have h2 := congrArg Face.rotValue h
  simp [rotate_landmarks, Face.rotValue] at h2

/-- C4 amended: the object shape and the mapping shape behave alike — the
caller's argument itself is mutated in place (its `r` becomes 0) and, when
the call returns (at least two landmarks; otherwise an exception follows
the mutation), that same mutated record is what is returned; only the
bare-rectangle shape is non-mutating, returning a freshly constructed
rectangle. -/
theorem rotate_landmarks_side_effects (m : AffineMat)
    (f : DetectedFace) (d : FaceDict) (rc : DlibRectangle)
    (hf : 2 ≤ f.landmarksXY.length) (hd : 2 ≤ (d.landmarksXY.getD []).length) :
    (∃ g : DetectedFace,
       (rotate_landmarks (Face.detected f) m).inputAfter = Face.detected g ∧ g.r = 0 ∧
       (rotate_landmarks (Face.detected f) m).result = Except.ok (Face.detected g)) ∧
    (∃ d2 : FaceDict,
       (rotate_landmarks (Face.mapping d) m).inputAfter = Face.mapping d2 ∧
       d2.r = some 0 ∧
       (rotate_landmarks (Face.mapping d) m).result = Except.ok (Face.mapping d2)) ∧
    ((rotate_landmarks (Face.rect rc) m).inputAfter = Face.rect rc ∧
     ∃ nr : DlibRectangle,
       (rotate_landmarks (Face.rect rc) m).result = Except.ok (Face.rect nr)) := by
  refine ⟨?_, ?_, ?_⟩
  · rcases hL : f.landmarksXY with _ | ⟨p, _ | ⟨q, rest⟩⟩
    · rw [hL] at hf; simp at hf
    · rw [hL] at hf; simp at hf
    · simp only [rotate_landmarks, hL]
      exact ⟨_, rfl, rfl, rfl⟩
  · rcases hL : d.landmarksXY.getD [] with _ | ⟨p, _ | ⟨q, rest⟩⟩
    · rw [hL] at hd; simp at hd
    · rw [hL] at hd; simp at hd
    · simp only [rotate_landmarks, hL]
      exact ⟨_, rfl, rfl, rfl⟩
  · exact ⟨rfl, _, rfl⟩

theorem rotate_landmarks_side_effects_witness :
    (2 ≤ (DetectedFace.mk 0 0 2 3 9 [(0, 0), (1, 1)]).landmarksXY.length ∧
     2 ≤ ((FaceDict.mk none none none none none
            (some [(0, 0), (1, 1)])).landmarksXY.getD []).length) ∧
    ((∃ g : DetectedFace,
       (rotate_landmarks (Face.detected (DetectedFace.mk 0 0 2 3 9 [(0, 0), (1, 1)]))
           identityMat).inputAfter = Face.detected g ∧ g.r = 0 ∧
       (rotate_landmarks (Face.detected (DetectedFace.mk 0 0 2 3 9 [(0, 0), (1, 1)]))
           identityMat).result = Except.ok (Face.detected g)) ∧
     (∃ d2 : FaceDict,
       (rotate_landmarks (Face.mapping (FaceDict.mk none none none none none
            (some [(0, 0), (1, 1)]))) identityMat).inputAfter = Face.mapping d2 ∧
       d2.r = some 0 ∧
       (rotate_landmarks (Face.mapping (FaceDict.mk none none none none none
            (some [(0, 0), (1, 1)]))) identityMat).result =
          Except.ok (Face.mapping d2)) ∧
     ((rotate_landmarks (Face.rect (DlibRectangle.mk 1 2 3 4))
          identityMat).inputAfter = Face.rect (DlibRectangle.mk 1 2 3 4) ∧
      ∃ nr : DlibRectangle,
       (rotate_landmarks (Face.rect (DlibRectangle.mk 1 2 3 4)) identityMat).result =
          Except.ok (Face.rect nr))) :=
  ⟨⟨by decide, by decide⟩,
   rotate_landmarks_side_effects identityMat (DetectedFace.mk 0 0 2 3 9 [(0, 0), (1, 1)])
     (FaceDict.mk none none none none none (some [(0, 0), (1, 1)]))
     (DlibRectangle.mk 1 2 3 4) (by decide) (by decide)⟩

/-- Pushing a box forward through an affine matrix: the axis-aligned bound
of its four transformed corners (how an image pre-rotation carries a box
into the rotated frame), as `(min x, min y, max x, max y)`. -/
def applyMatToBox (m : AffineMat) (x y w h : ℤ) : ℤ × ℤ × ℤ × ℤ :=
  aabbOf ([(x, y), (x + w, y), (x + w, y + h), (x, y + h)].map (transformPoint m))

/-- C2: for every bounding box with non-negative width and height, pushing
the box through a 90-, 180- or 270-degree rotation matrix (any integer
translation) and then running `rotate_landmarks` with that same matrix
recovers exactly the original axis-aligned box. -/
theorem rotate_landmarks_rot_roundtrip (x y w h tx ty : ℤ) (hw : 0 ≤ w) (hh : 0 ≤ h)
    (m : AffineMat) (hm : m = rot90 tx ty ∨ m = rot180 tx ty ∨ m = rot270 tx ty) :
    rotate_landmarks
        (Face.rect (DlibRectangle.mk (applyMatToBox m x y w h).1
          (applyMatToBox m x y w h).2.1 (applyMatToBox m x y w h).2.2.1
          (applyMatToBox m x y w h).2.2.2)) m =
      ⟨Face.rect (DlibRectangle.mk (applyMatToBox m x y w h).1
          (applyMatToBox m x y w h).2.1 (applyMatToBox m x y w h).2.2.1
          (applyMatToBox m x y w h).2.2.2),
       Except.ok (Face.rect (DlibRectangle.mk x y (x + w) (y + h)))⟩ := by
  rcases hm with rfl | rfl | rfl <;>
  · simp only [applyMatToBox, rotate_landmarks, List.map_cons, List.map_nil,
      transformPoint_rot90, transformPoint_rot180, transformPoint_rot270,
      transformPoint_invRot90, transformPoint_invRot180, transformPoint_invRot270,
      aabbOf, pyMin, pyMax, List.foldl_cons, List.foldl_nil,
      RotateOutcome.mk.injEq, Face.rect.injEq, DlibRectangle.mk.injEq,
      Except.ok.injEq, true_and]
    omega

theorem rotate_landmarks_rot_roundtrip_witness :
    (0 ≤ (3 : ℤ) ∧ 0 ≤ (4 : ℤ) ∧
      (rot90 5 6 = rot90 5 6 ∨ rot90 5 6 = rot180 5 6 ∨ rot90 5 6 = rot270 5 6)) ∧
    rotate_landmarks
        (Face.rect (DlibRectangle.mk (applyMatToBox (rot90 5 6) 1 2 3 4).1
          (applyMatToBox (rot90 5 6) 1 2 3 4).2.1 (applyMatToBox (rot90 5 6) 1 2 3 4).2.2.1
          (applyMatToBox (rot90 5 6) 1 2 3 4).2.2.2)) (rot90 5 6) =
      ⟨Face.rect (DlibRectangle.mk (applyMatToBox (rot90 5 6) 1 2 3 4).1
          (applyMatToBox (rot90 5 6) 1 2 3 4).2.1 (applyMatToBox (rot90 5 6) 1 2 3 4).2.2.1
          (applyMatToBox (rot90 5 6) 1 2 3 4).2.2.2),
       Except.ok (Face.rect (DlibRectangle.mk 1 2 (1 + 3) (2 + 4)))⟩ :=
  ⟨⟨by decide, by decide, Or.inl rfl⟩,
   rotate_landmarks_rot_roundtrip 1 2 3 4 5 6 (by decide) (by decide) (rot90 5 6)
     (Or.inl rfl)⟩

/-- The numpy dtypes the embedding distinguishes for images. -/
inductive DType where
  | uint8
  | float32
deriving DecidableEq

/-- `.astype` back to the stored dtype: identity for float images
(idealised as exact rationals), C-style truncation then 8-bit wrap for
uint8 (an in-range integer value is returned unchanged). -/
def DType.cast : DType → ℚ → ℚ
  | .uint8, q => ((ratTrunc q % 256 : ℤ) : ℚ)
  | .float32, q => q

/-- A channel value representable in the dtype: any rational for float32,
an integer in `[0, 256)` for uint8. -/
def DType.validChannel : DType → ℚ → Prop
  | .uint8, q => q.den = 1 ∧ 0 ≤ q.num ∧ q.num < 256
  | .float32, _ => True

instance (dt : DType) (q : ℚ) : Decidable (dt.validChannel q) := by
  cases dt
  · exact inferInstanceAs (Decidable (_ ∧ _ ∧ _))
  · exact inferInstanceAs (Decidable True)

/-- A three-plane `(b, g, r)` image carrying its numpy dtype. -/
structure ImageBGR where
  dtype : DType
  pixels : List (List (ℚ × ℚ × ℚ))
deriving DecidableEq

/-- A four-plane `(b, g, r, a)` image. -/
structure ImageBGRA where
  dtype : DType
  pixels : List (List (ℚ × ℚ × ℚ × ℚ))
deriving DecidableEq

/-- Every channel of the image is representable in its dtype. -/
def ImageBGR.valid (img : ImageBGR) : Prop :=
  ∀ row ∈ img.pixels, ∀ px ∈ row,
    img.dtype.validChannel px.1 ∧ img.dtype.validChannel px.2.1 ∧
    img.dtype.validChannel px.2.2

instance (img : ImageBGR) : Decidable img.valid :=
  inferInstanceAs (Decidable (∀ row ∈ img.pixels, ∀ px ∈ row, _ ∧ _ ∧ _))

/-- `add_alpha_channel(image, intensity)`: `assert 0 <= intensity <= 100`
first (before the image is touched), then scale the intensity by
`255.0 / 100.0`, convert the image to float32 (exact here), split off the
`b, g, r` planes, build a constant alpha plane, merge, and cast the merged
`bgra` image back to the input's dtype. -/
def add_alpha_channel (image : ImageBGR) (intensity : ℚ) :
    Except PyError ImageBGRA :=
  if 0 ≤ intensity ∧ intensity ≤ 100 then
    let scaled := 255 / 100 * intensity
    Except.ok ⟨image.dtype,
      image.pixels.map (fun row => row.map (fun px =>
        (image.dtype.cast px.1, image.dtype.cast px.2.1, image.dtype.cast px.2.2,
         image.dtype.cast scaled)))⟩
  else Except.error (PyError.assertionError "Invalid intensity supplied")

theorem DType.cast_valid (dt : DType) (q : ℚ) (h : dt.validChannel q) :
    dt.cast q = q := by
  cases dt
  · obtain ⟨h1, h2, h3⟩ := h
    have hq : ((q.num : ℤ) : ℚ) = q := Rat.coe_int_num_of_den_eq_one h1
    rw [DType.cast, ← hq, ratTrunc_intCast, Int.emod_eq_of_lt h2 h3]
  · rfl

/-- C7 as stated is false for integer-typed images: with a uint8 image and
intensity 50 the stored alpha value is 127 (truncated by the final
`.astype` back to the input dtype), not the claimed `(255/100) * 50 = 127.5`. -/
theorem add_alpha_channel_cex :
    add_alpha_channel ⟨DType.uint8, [[(0, 0, 0)]]⟩ 50 =
      Except.ok ⟨DType.uint8, [[(0, 0, 0, 127)]]⟩ ∧
    (127 : ℚ) ≠ 255 / 100 * 50 := by
  constructor
  · simp only [add_alpha_channel, DType.cast, List.map_cons, List.map_nil]
    norm_num [ratTrunc]
  · norm_num

/-- C7 amended: for an intensity in `[0, 100]` and an image whose channels
are representable in its dtype, the call succeeds; the three colour planes
are returned equal to the input, and the alpha plane is filled with the
single constant `(255/100) * intensity` converted to the image's dtype
(that value exactly for float images, truncated for uint8); intensity 0
gives the fully solid plane 0 and intensity 100 the fully transparent
plane 255 in either dtype. -/
theorem add_alpha_channel_correct (img : ImageBGR) (intensity : ℚ)
    (h0 : 0 ≤ intensity) (h1 : intensity ≤ 100) (hv : img.valid) :
    add_alpha_channel img intensity =
      Except.ok ⟨img.dtype,
        img.pixels.map (fun row => row.map (fun px =>
          (px.1, px.2.1, px.2.2, img.dtype.cast (255 / 100 * intensity))))⟩ ∧
    (intensity = 0 → img.dtype.cast (255 / 100 * intensity) = 0) ∧
    (intensity = 100 → img.dtype.cast (255 / 100 * intensity) = 255) := by
  refine ⟨?_, ?_, ?_⟩
  · simp only [add_alpha_channel, if_pos (And.intro h0 h1), Except.ok.injEq,
      ImageBGRA.mk.injEq, true_and]
    refine List.map_congr_left (fun row hrow => ?_)
    refine List.map_congr_left (fun px hpx => ?_)
    obtain ⟨hb, hg, hr⟩ := hv row hrow px hpx
    rw [DType.cast_valid _ _ hb, DType.cast_valid _ _ hg, DType.cast_valid _ _ hr]
  · rintro rfl
    cases hdt : img.dtype <;> norm_num [DType.cast, ratTrunc]
  · rintro rfl
    cases hdt : img.dtype <;> norm_num [DType.cast, ratTrunc]

theorem add_alpha_channel_correct_witness :
    (0 ≤ (100 : ℚ) ∧ (100 : ℚ) ≤ 100 ∧ (ImageBGR.mk DType.uint8 [[(1, 2, 3)]]).valid) ∧
    (add_alpha_channel (ImageBGR.mk DType.uint8 [[(1, 2, 3)]]) 100 =
      Except.ok ⟨(ImageBGR.mk DType.uint8 [[(1, 2, 3)]]).dtype,
        (ImageBGR.mk DType.uint8 [[(1, 2, 3)]]).pixels.map (fun row => row.map (fun px =>
          (px.1, px.2.1, px.2.2,
           (ImageBGR.mk DType.uint8 [[(1, 2, 3)]]).dtype.cast (255 / 100 * 100))))⟩ ∧
    ((100 : ℚ) = 0 →
      (ImageBGR.mk DType.uint8 [[(1, 2, 3)]]).dtype.cast (255 / 100 * 100) = 0) ∧
    ((100 : ℚ) = 100 →
      (ImageBGR.mk DType.uint8 [[(1, 2, 3)]]).dtype.cast (255 / 100 * 100) = 255)) :=
  ⟨⟨by norm_num, by norm_num, by decide⟩,
   add_alpha_channel_correct (ImageBGR.mk DType.uint8 [[(1, 2, 3)]]) 100
     (by norm_num) (by norm_num) (by decide)⟩

/-- C8: for every intensity outside `[0, 100]` the call fails with the
assertion error, identically for every image (the check precedes any read
of the image, so the outcome cannot depend on it); for every intensity
inside `[0, 100]` no such error is raised. -/
theorem add_alpha_channel_assert (intensity : ℚ) (img img2 : ImageBGR) :
    (¬ (0 ≤ intensity ∧ intensity ≤ 100) →
      add_alpha_channel img intensity =
        Except.error (PyError.assertionError "Invalid intensity supplied") ∧
      add_alpha_channel img intensity = add_alpha_channel img2 intensity) ∧
    ((0 ≤ intensity ∧ intensity ≤ 100) →
      ∃ out, add_alpha_channel img intensity = Except.ok out) := by
  constructor
  · intro hbad
    rw [add_alpha_channel, add_alpha_channel, if_neg hbad, if_neg hbad]
    exact ⟨rfl, rfl⟩
  · intro hgood
    rw [add_alpha_channel, if_pos hgood]
    exact ⟨_, rfl⟩

theorem add_alpha_channel_assert_witness :
    (¬ (0 ≤ (150 : ℚ) ∧ (150 : ℚ) ≤ 100) ∧
      add_alpha_channel (ImageBGR.mk DType.uint8 [[(1, 2, 3)]]) 150 =
        Except.error (PyError.assertionError "Invalid intensity supplied") ∧
      add_alpha_channel (ImageBGR.mk DType.uint8 [[(1, 2, 3)]]) 150 =
        add_alpha_channel (ImageBGR.mk DType.float32 []) 150) ∧
    ((0 ≤ (50 : ℚ) ∧ (50 : ℚ) ≤ 100) ∧
      ∃ out, add_alpha_channel (ImageBGR.mk DType.uint8 [[(1, 2, 3)]]) 50 =
        Except.ok out) :=
  ⟨⟨by norm_num,
    (add_alpha_channel_assert 150 (ImageBGR.mk DType.uint8 [[(1, 2, 3)]])
      (ImageBGR.mk DType.float32 [])).1 (by norm_num)⟩,
   ⟨by norm_num,
    (add_alpha_channel_assert 50 (ImageBGR.mk DType.uint8 [[(1, 2, 3)]])
      (ImageBGR.mk DType.float32 [])).2 (by norm_num)⟩⟩

/-- A Python `str` as its sequence of characters. -/
abbrev PyStr := List Char

/-- `str.lower()` restricted to the ASCII letters, which is all the
extension matching needs. -/
def lowerChar (c : Char) : Char :=
  if 'A' ≤ c ∧ c ≤ 'Z' then Char.ofNat (c.toNat + 32) else c

/-- `name.lower()`. -/
def pyLower (s : PyStr) : PyStr := s.map lowerChar

/-- `name.endswith(ext)`. -/
def pyEndsWith (s suffix : PyStr) : Bool := suffix.isSuffixOf s

/-- Python string comparison `a <= b`: code-point lexicographic. -/
def pyStrLe : PyStr → PyStr → Bool
  | [], _ => true
  | _ :: _, [] => false
  | a :: as, b :: bs =>
      if a.toNat < b.toNat then true
      else if b.toNat < a.toNat then false
      else pyStrLe as bs

theorem pyStrLe_total : ∀ (a b : PyStr), (pyStrLe a b || pyStrLe b a) = true
  | [], b => by simp [pyStrLe]
  | a :: as, [] => by simp [pyStrLe]
  | a :: as, b :: bs => by
      simp only [pyStrLe]
      by_cases h1 : a.toNat < b.toNat
      · simp [h1]
      · by_cases h2 : b.toNat < a.toNat
        · simp [h1, h2]
        · simp [h1, h2, pyStrLe_total as bs]

theorem pyStrLe_trans : ∀ (a b c : PyStr),
    pyStrLe a b = true → pyStrLe b c = true → pyStrLe a c = true
  | [], _, _, _, _ => by simp [pyStrLe]
  | _ :: _, [], _, h1, _ => by simp [pyStrLe] at h1
  | _ :: _, _ :: _, [], _, h2 => by simp [pyStrLe] at h2
  | a :: as, b :: bs, c :: cs, h1, h2 => by
      simp only [pyStrLe] at h1 h2 ⊢
      by_cases hab : a.toNat < b.toNat <;> by_cases hbc : b.toNat < c.toNat <;>
        by_cases hba : b.toNat < a.toNat <;> by_cases hcb : c.toNat < b.toNat <;>
          simp [hab, hbc, hba, hcb] at h1 h2 ⊢ <;>
            first
              | omega
              | (have hac : a.toNat < c.toNat := by omega
                 simp [hac])
              | (have hac : ¬ a.toNat < c.toNat := by omega
                 have hca : ¬ c.toNat < a.toNat := by omega
                 simp [hac, hca]
                 first
                   | exact pyStrLe_trans as bs cs h1 h2
                   | exact ⟨by omega, pyStrLe_trans as bs cs h1 h2⟩)

/-- One `os.scandir` entry: its name and whether it is a regular file
(directories and other kinds have `is_file = false`). -/
structure DirEntry where
  name : PyStr
  is_file : Bool
deriving DecidableEq

/-- The recognised image extensions (`_image_extensions`). -/
def _image_extensions : List PyStr :=
  [".bmp".data, ".jpeg".data, ".jpg".data, ".png".data, ".tif".data, ".tiff".data]

/-- `sorted(os.scandir(directory), key=lambda x: x.name)`'s comparison. -/
def entryLe (e1 e2 : DirEntry) : Bool := pyStrLe e1.name e2.name

/-- `get_image_paths(directory)` on an existing directory, given its
entries: sort all entries by name, keep every entry whose lowercased name
ends with a recognised image extension — the entry's kind is never
consulted — and return the kept names in order. -/
def get_image_paths (entries : List DirEntry) : List PyStr :=
  let dir_scanned := entries.mergeSort entryLe
  (dir_scanned.filter fun chkfile =>
      _image_extensions.any fun ext => pyEndsWith (pyLower chkfile.name) ext).map
    DirEntry.name

/-- `get_image_paths` together with its existence check: `none` models a
missing directory, which `get_folder` creates (empty) instead of the call
failing; the pair returned is the directory state after the call and the
listing. -/
def get_image_paths_checked (directory : Option (List DirEntry)) :
    List DirEntry × List PyStr :=
  match directory with
  | none => ([], get_image_paths [])
  | some entries => (entries, get_image_paths entries)

unseal List.merge List.mergeSort in
/-- C9 as stated is false in its "returning only files" part: the source
filters on the name suffix alone and never consults the entry's kind, so a
subdirectory named `sub.png` is returned among the "images". -/
theorem get_image_paths_cex :
    (DirEntry.mk "sub.png".data false).is_file = false ∧
    get_image_paths [DirEntry.mk "sub.png".data false] = ["sub.png".data] :=
  ⟨rfl, by decide⟩

/-- C9 amended: `get_image_paths` returns exactly the entries — of any
kind, files and subdirectories alike — whose name ends case-insensitively
with one of `.bmp .jpeg .jpg .png .tif .tiff`, in ascending order of entry
name; a missing directory is created empty rather than the call failing,
yielding an empty listing. -/
theorem get_image_paths_correct (entries : List DirEntry) :
    (get_image_paths entries).Perm
      ((entries.filter fun e =>
          _image_extensions.any fun ext => pyEndsWith (pyLower e.name) ext).map
        DirEntry.name) ∧
    (get_image_paths entries).Pairwise (fun n1 n2 => pyStrLe n1 n2 = true) ∧
    get_image_paths_checked none = ([], []) := by
  refine ⟨?_, ?_, by simp [get_image_paths_checked, get_image_paths]⟩
  · unfold get_image_paths
    exact ((List.mergeSort_perm entries entryLe).filter _).map _
  · unfold get_image_paths
    have htrans : ∀ a b c : DirEntry,
        entryLe a b = true → entryLe b c = true → entryLe a c = true :=
      fun a b c h1 h2 => pyStrLe_trans a.name b.name c.name h1 h2
    have htotal : ∀ a b : DirEntry, (entryLe a b || entryLe b a) = true :=
      fun a b => pyStrLe_total a.name b.name
    have hs : (entries.mergeSort entryLe).Pairwise
        (fun e1 e2 => entryLe e1 e2 = true) := by
      exact List.sorted_mergeSort htrans htotal entries
    have hf := hs.filter
      (fun e => _image_extensions.any fun ext => pyEndsWith (pyLower e.name) ext)
    exact List.pairwise_map.mpr hf

/-- The regex class `[a-z]`. -/
def isLowerAZ (c : Char) : Bool := 'a'.toNat ≤ c.toNat && c.toNat ≤ 'z'.toNat

/-- The regex class `[A-Z]`. -/
def isUpperAZ (c : Char) : Bool := 'A'.toNat ≤ c.toNat && c.toNat ≤ 'Z'.toNat

/-- The zero-width camel boundaries of the `camel_case_split` regex at
position `q` of `s`: `(?<=[a-z])(?=[A-Z])` or `(?<=[A-Z])(?=[A-Z][a-z])`.
The lookbehind reads `s[q-1]`, which lies in the text `.+?` has already
consumed. -/
def camelBoundary (s : List Char) (q : Nat) : Bool :=
  (isLowerAZ (s.getD (q - 1) ' ') && decide (q < s.length) && isUpperAZ (s.getD q ' '))
  || (isUpperAZ (s.getD (q - 1) ' ') && decide (q + 1 < s.length)
      && isUpperAZ (s.getD q ' ') && isLowerAZ (s.getD (q + 1) ' '))

/-- Python's `$` without MULTILINE: end of string, or just before a final
newline. -/
def dollarAt (s : List Char) (q : Nat) : Bool :=
  q == s.length || (q + 1 == s.length && s.getD q ' ' == '\n')

/-- End position of the lazy `.+?(?:boundary|boundary|$)` match under way:
the text `s[p..r)` is consumed so far; stop at the first `r` where the
zero-width group matches; fail if the next character to consume is a
newline (`.` does not match a newline without DOTALL). -/
def findEnd (s : List Char) (r : Nat) : Option Nat :=
  if s.length < r then none
  else if camelBoundary s r || dollarAt s r then some r
  else if s.getD r ' ' = '\n' then none
  else findEnd s (r + 1)
termination_by s.length + 1 - r
decreasing_by omega

/-- A match of the split regex starting at position `p`: `.+?` must
consume at least one non-newline character before the zero-width group is
tried. Returns the end position of the (lazy, shortest) match. -/
def matchAt (s : List Char) (p : Nat) : Option Nat :=
  if decide (p < s.length) && !(s.getD p ' ' == '\n') then findEnd s (p + 1) else none

theorem findEnd_ge (s : List Char) (r q : Nat) (h : findEnd s r = some q) : r ≤ q := by
  unfold findEnd at h
  split at h
  · cases h
  · split at h
    · simp only [Option.some.injEq] at h
      omega
    · split at h
      · cases h
      · have := findEnd_ge s (r + 1) q h
        omega
termination_by s.length + 1 - r
decreasing_by omega

theorem findEnd_le (s : List Char) (r q : Nat) (h : findEnd s r = some q) :
    q ≤ s.length := by
  unfold findEnd at h
  split at h
  · cases h
  · rename_i hr
    split at h
    · simp only [Option.some.injEq] at h
      omega
    · split at h
      · cases h
      · exact findEnd_le s (r + 1) q h
termination_by s.length + 1 - r
decreasing_by omega

theorem findEnd_total (s : List Char) (hnl : '\n' ∉ s) (r : Nat)
    (hr : r ≤ s.length) : ∃ q, findEnd s r = some q := by
  unfold findEnd
  split
  · omega
  · split
    · exact ⟨r, rfl⟩
    · rename_i hb
      have hrlt : r < s.length := by
        rcases Nat.lt_or_ge r s.length with h | h
        · exact h
        · exfalso
          have : r = s.length := by omega
          simp [dollarAt, this] at hb
      split
      · rename_i hc
        exfalso
        rw [List.getD_eq_getElem s ' ' hrlt] at hc
        exact hnl (hc ▸ List.getElem_mem hrlt)
      · exact findEnd_total s hnl (r + 1) (by omega)
termination_by s.length + 1 - r
decreasing_by omega

theorem matchAt_ge (s : List Char) (p q : Nat) (h : matchAt s p = some q) : p < q := by
  unfold matchAt at h
  split at h
  · have := findEnd_ge s (p + 1) q h
    omega
  · cases h

theorem matchAt_le (s : List Char) (p q : Nat) (h : matchAt s p = some q) :
    q ≤ s.length := by
  unfold matchAt at h
  split at h
  · exact findEnd_le s (p + 1) q h
  · cases h

theorem matchAt_total (s : List Char) (hnl : '\n' ∉ s) (p : Nat)
    (hp : p < s.length) : ∃ q, matchAt s p = some q := by
  unfold matchAt
  rw [if_pos]
  · exact findEnd_total s hnl (p + 1) (by omega)
  · simp only [Bool.and_eq_true, decide_eq_true_eq, Bool.not_eq_true']
    refine ⟨hp, ?_⟩
    rw [List.getD_eq_getElem s ' ' hp]
    simp only [beq_eq_false_iff_ne, ne_eq]
    intro hc
    exact hnl (hc ▸ List.getElem_mem hp)

/-- `re.finditer` over the identifier: repeatedly try to match at `p`; on
a match `[p, q)` emit the matched text and resume at `q`; otherwise
advance one position (a character skipped this way belongs to no match). -/
def splitFrom (s : List Char) (p : Nat) : List (List Char) :=
  if s.length ≤ p then []
  else
    match hm : matchAt s p with
    | some q => ((s.drop p).take (q - p)) :: splitFrom s q
    | none => splitFrom s (p + 1)
termination_by s.length - p
decreasing_by
  · have := matchAt_ge s p q hm
    omega
  · omega

/-- `camel_case_split(identifier)`: the segments produced by `finditer` of
`.+?(?:(?<=[a-z])(?=[A-Z])|(?<=[A-Z])(?=[A-Z][a-z])|$)` over the
identifier, in order. -/
def camel_case_split (identifier : PyStr) : List PyStr := splitFrom identifier 0

theorem splitFrom_join (s : List Char) (hnl : '\n' ∉ s) (p : Nat) :
    (splitFrom s p).flatten = s.drop p := by
  unfold splitFrom
  split
  · rename_i hp
    simp [List.drop_eq_nil_of_le hp]
  · rename_i hp
    split
    · rename_i q hm
      have h1 := matchAt_ge s p q hm
      have h2 := matchAt_le s p q hm
      rw [List.flatten_cons, splitFrom_join s hnl q]
      have hdq : s.drop q = (s.drop p).drop (q - p) := by
        rw [List.drop_drop]
        congr 1
        omega
      rw [hdq, List.take_append_drop]
    · rename_i hm
      exfalso
      obtain ⟨q, hq⟩ := matchAt_total s hnl p (by omega)
      rw [hq] at hm
      cases hm
termination_by s.length - p
decreasing_by omega

unseal findEnd splitFrom in
/-- C10 as stated is false: the regex's `.` does not match a newline, so
an input containing one loses characters — on the one-character input
`"\n"` the split is empty and the concatenation of its segments is not the
input. -/
theorem camel_case_split_cex :
    (camel_case_split "\n".data).flatten ≠ "\n".data := by decide

/-- C10 amended: for every input string containing no newline character
the segments returned by `camel_case_split`, concatenated in order, equal
the input exactly; the empty string yields an empty list. (With an
embedded newline the matcher can drop characters, so the claim as stated
fails.) -/
theorem camel_case_split_join (s : PyStr) (hnl : '\n' ∉ s) :
    (camel_case_split s).flatten = s ∧ camel_case_split [] = [] := by
  constructor
  · have h := splitFrom_join s hnl 0
    simpa using h
  · unfold camel_case_split splitFrom
    simp

unseal findEnd splitFrom in
theorem camel_case_split_join_witness :
    '\n' ∉ "helloWorldABCDef".data ∧
    ((camel_case_split "helloWorldABCDef".data).flatten = "helloWorldABCDef".data ∧
     camel_case_split [] = []) :=
  ⟨by decide, camel_case_split_join "helloWorldABCDef".data (by decide)⟩
